import Mathlib

/-!
# Verification of the react-native-calendar-kit excerpt

Shallow embedding of the month-grid renderer (`MonthView`), the month-page
adapter (`MonthViewBody`), the time-grid event block renderer (`EventItem`)
and the paging dispatch of the time-grid body (`CalendarBody._renderTimeSlots`),
together with proofs of the spec claims about them.

Instants are modelled as integer milliseconds in a fixed-offset timezone, so
`startOf('day')` is rounding down to a multiple of a day, `plus({days: 1})` is
adding one day of milliseconds, and calendar fields come from the standard
civil-from-days conversion.  JavaScript numbers used for geometry (minutes,
pixel widths) are modelled as rationals.
-/

namespace CalendarKit

/-- `MILLISECONDS_IN_DAY` from `constants`. -/
def MILLISECONDS_IN_DAY : ℤ := 86400000

/-- Day number (days since 1970-01-01) of an instant, flooring as a fixed-offset
zone does. -/
def dayOf (t : ℤ) : ℤ := Int.fdiv t MILLISECONDS_IN_DAY

/-- `parseDateTime(t).startOf('day').toMillis()`: midnight of the instant's day. -/
def dayStartMs (t : ℤ) : ℤ := dayOf t * MILLISECONDS_IN_DAY

/-- Luxon's `weekday` of a day number: 1 = Monday … 7 = Sunday
(1970-01-01, day 0, was a Thursday, weekday 4). -/
def weekdayOfDay (d : ℤ) : ℤ := (d + 3) % 7 + 1

/-- Civil (year, month, day) of a day number (proleptic Gregorian,
Hinnant's `civil_from_days`). -/
def civilFromDays (z : ℤ) : ℤ × ℤ × ℤ :=
  let z' := z + 719468
  let era := Int.fdiv z' 146097
  let doe := z' - era * 146097
  let yoe := (doe - doe / 1460 + doe / 36524 - doe / 146096) / 365
  let y := yoe + era * 400
  let doy := doe - (365 * yoe + yoe / 4 - yoe / 100)
  let mp := (5 * doy + 2) / 153
  let d := doy - (153 * mp + 2) / 5 + 1
  let m := mp + (if mp < 10 then 3 else -9)
  (y + (if m ≤ 2 then 1 else 0), m, d)

/-- Day number of a civil date (Hinnant's `days_from_civil`). -/
def daysFromCivil (y m d : ℤ) : ℤ :=
  let y' := y - (if m ≤ 2 then 1 else 0)
  let era := Int.fdiv y' 400
  let yoe := y' - era * 400
  let doy := (153 * (m + (if 2 < m then (-3 : ℤ) else 9)) + 2) / 5 + d - 1
  let doe := yoe * 365 + yoe / 4 - yoe / 100 + doy
  era * 146097 + doe - 719468

/-- Luxon's `.month` of a day number (1–12). -/
def monthOfDay (d : ℤ) : ℤ := (civilFromDays d).2.1

/-- Day number of `startOf('month')` of a day number. -/
def startOfMonthDayNum (d : ℤ) : ℤ :=
  let c := civilFromDays d
  daysFromCivil c.1 c.2.1 1

example : civilFromDays 0 = (1970, 1, 1) := by decide
example : daysFromCivil 1970 1 1 = 0 := by decide
-- 2024-01-01 was a Monday.
example : weekdayOfDay (daysFromCivil 2024 1 1) = 1 := by decide

/-! ## Event records of the month grid -/

/-- The raw `start` value of a host-supplied event record.

Modelled from the spec: `parseDateTime` (in `utils/dateUtils`, not part of the
excerpt) parses a numeric instant or ISO string into a timezone-aware value and
fails on malformed input; a host value is therefore either one that resolves to
an instant or one whose parse fails. -/
inductive DateValue where
  | valid (t : ℤ)
  | malformed (s : String)
deriving DecidableEq

/-- Modelled from the spec: the result of `parseDateTime(value, { zone })` for a
host-supplied `start` field — `some` instant on success, `none` when the value
cannot be parsed as a valid instant in the active timezone (the failure the
`catch` branch of the day filter observes). -/
def parseDateTimeEvent : DateValue → Option ℤ
  | .valid t => some t
  | .malformed _ => none

/-- The host-facing `EventItem` record (`{id, start, end, title, color?, …}`). -/
structure EventItem where
  id : ℕ
  start : DateValue
  title : String
  color : String
deriving DecidableEq

/-- One derived day cell of the month grid (an element of `monthData`). -/
structure MonthCell where
  dateUnix : ℤ
  isCurrentMonth : Bool
  isToday : Bool
  events : List EventItem
  warnings : List EventItem
deriving DecidableEq

/-- `MonthView.monthData`: the 42-cell grid derived from the anchor instant
`dateUnix`, the configured first day of week, the now-indicator instant and the
event list.  Each cell keeps the events whose parsed `start` falls on the
cell's calendar date; events whose `start` fails to parse are dropped and
recorded in the cell's `warnings` (the `console.warn` in the `catch` branch). -/
def monthData (dateUnix : ℤ) (firstDay : ℕ) (currentDateUnix : ℤ)
    (events : List EventItem) : List MonthCell :=
  let anchorDay := dayOf dateUnix
  let som := startOfMonthDayNum anchorDay
  let firstDayOfWeek := weekdayOfDay som
  let diffToFirstDay := (firstDayOfWeek - firstDay + 7) % 7
  let startOfCalendar := som - diffToFirstDay
  (List.range 42).map fun (i : ℕ) =>
    let day := startOfCalendar + (i : ℤ)
    { dateUnix := day * MILLISECONDS_IN_DAY
      isCurrentMonth := monthOfDay day == monthOfDay anchorDay
      isToday := day * MILLISECONDS_IN_DAY == currentDateUnix
      events := events.filter fun ev =>
        match parseDateTimeEvent ev.start with
        | some t => dayOf t == day
        | none => false
      warnings := events.filter fun ev => (parseDateTimeEvent ev.start).isNone }

/-- `MonthView.weekDays`: the 7 header labels,
`weekDayShort[(firstDay + i - 1) % 7]` for `i` in `0..6`. -/
def weekDays (firstDay : ℕ) (weekDayShort : List String) : List String :=
  (List.range 7).map fun i => weekDayShort.getD ((firstDay + i - 1) % 7) ""

/-! ## The time-grid event block renderer (`EventItem`) -/

/-- The `_internal` layout block of a packed event, computed upstream of the
renderer.  Optional JavaScript fields are `Option`s; a missing or `0` value is
falsy where the renderer tests truthiness. -/
structure EventInternal where
  duration : ℚ
  startMinutes : ℚ
  total : Option ℕ
  index : Option ℕ
  columnSpan : Option ℕ
  startUnix : ℤ
  widthPercentage : Option ℚ
  xOffsetPercentage : Option ℚ
  resourceIndex : Option ℕ
deriving DecidableEq

/-- A `PackedEvent`: the host record enriched with the `_internal` layout
block.  `_internal := none` models an object without the key (the result of
the rest-spread that removes it). -/
structure PackedEvent where
  id : ℕ
  title : String
  color : String
  titleColor : String
  _internal : Option EventInternal
deriving DecidableEq

/-- `const { _internal, ...event } = eventInput`: the rest object `event`,
i.e. the record with the `_internal` key removed. -/
def stripInternal (e : PackedEvent) : PackedEvent :=
  { e with _internal := none }

/-- The argument `EventItem._onPressEvent` passes to the caller's
`onPressEvent`: it is `eventInput` itself. -/
def eventItemPressArg (eventInput : PackedEvent) : PackedEvent := eventInput

/-- The argument `EventItem._onLongPressEvent` passes to the caller's
`onLongPressEvent`: it is `eventInput` itself. -/
def eventItemLongPressArg (eventInput : PackedEvent) : PackedEvent := eventInput

/-- The record whose `color` / `title` / `titleColor` the default rendering
reads: the destructured `event`, i.e. `eventInput` with `_internal` removed. -/
def eventItemRenderedRecord (eventInput : PackedEvent) : PackedEvent :=
  stripInternal eventInput

/-- JavaScript truthiness of an optional number-valued field (`undefined` and
`0` are falsy). -/
def truthyN (o : Option ℕ) : Bool := o.getD 0 != 0

/-- JavaScript truthiness of an optional rational-valued field. -/
def truthyQ (o : Option ℚ) : Bool := o.getD 0 != 0

/-- The walk of `EventItem.data` over the days from `cur` (inclusive) up to
`target` (exclusive), stepping one day at a time and counting the days whose
day-start instant is **not** in the visible-dates map. -/
def countHiddenDays (visibleDates : ℤ → Bool) (cur target : ℤ) : ℕ :=
  if cur < target then
    (if visibleDates (dayStartMs cur) then 0 else 1) +
      countHiddenDays visibleDates (cur + MILLISECONDS_IN_DAY) target
  else 0
termination_by (target - cur).toNat
decreasing_by simp only [MILLISECONDS_IN_DAY]; omega

/-- Specification-side count of the days from `cur` (inclusive) up to `target`
(exclusive) whose day-start instant **is** in the visible-dates map: the number
of visible day columns spanned. -/
def visibleDayCount (visibleDates : ℤ → Bool) (cur target : ℤ) : ℕ :=
  if cur < target then
    (if visibleDates (dayStartMs cur) then 1 else 0) +
      visibleDayCount visibleDates (cur + MILLISECONDS_IN_DAY) target
  else 0
termination_by (target - cur).toNat
decreasing_by simp only [MILLISECONDS_IN_DAY]; omega

/-- The `diffDays` computation of `EventItem.data`: a floored whole-day
difference corrected by walking over the gap and discounting every day whose
day start is absent from the visible-dates map. -/
def eventDiffDays (eventStartUnix startUnix : ℤ) (visibleDates : ℤ → Bool) : ℤ :=
  let diffDays := Int.fdiv (eventStartUnix - startUnix) MILLISECONDS_IN_DAY
  if eventStartUnix < startUnix then
    diffDays + countHiddenDays visibleDates eventStartUnix startUnix
  else
    diffDays - countHiddenDays visibleDates startUnix eventStartUnix

/-- The vertical part of `EventItem.data`: clamp the duration to the visible
hour range and trim the portion before the window start.  Returns
`(startMinutes, totalDuration)` as finally stored in `data`. -/
def eventVerticalLayout (start end_ duration startMinutes : ℚ) : ℚ × ℚ :=
  let maxDuration := end_ - start
  let newStart := startMinutes - start
  let totalDuration := min duration maxDuration
  if newStart < 0 then (0, totalDuration + newStart) else (newStart, totalDuration)

/-- The `data` memo of `EventItem`. -/
structure EventLayoutData where
  totalDuration : ℚ
  startMinutes : ℚ
  diffDays : ℤ
deriving DecidableEq

/-- `EventItem.data`: clamped vertical extent plus the visible-column day
offset. -/
def eventItemData (start end_ duration startMinutes : ℚ)
    (eventStartUnix startUnix : ℤ) (visibleDates : ℤ → Bool) : EventLayoutData :=
  let v := eventVerticalLayout start end_ duration startMinutes
  { totalDuration := v.2
    startMinutes := v.1
    diffDays := eventDiffDays eventStartUnix startUnix visibleDates }

/-- The container style's `top` percentage:
`((data.startMinutes + 1) / timeRange) * 100`. -/
def topPercent (start end_ duration startMinutes : ℚ) : ℚ :=
  ((eventVerticalLayout start end_ duration startMinutes).1 + 1) / (end_ - start) * 100

/-- The container style's `height` percentage:
`((data.totalDuration - 1) / timeRange) * 100`. -/
def heightPercent (start end_ duration startMinutes : ℚ) : ℚ :=
  ((eventVerticalLayout start end_ duration startMinutes).2 - 1) / (end_ - start) * 100

/-- `EventItem.widthPercent`: the width fraction of the event inside its
day/resource column. -/
def widthPercent (total columnSpan : Option ℕ) (widthPercentage : Option ℚ)
    (columnWidth rightEdgeSpacing overlapEventsSpacing : ℚ)
    (childColumns : ℕ) : ℚ :=
  if truthyN total && truthyN columnSpan then
    let t : ℚ := total.getD 0
    let c : ℚ := columnSpan.getD 0
    let availableWidth := columnWidth / childColumns - rightEdgeSpacing
    let totalColumns := t - c
    let overlapSpacing := totalColumns * overlapEventsSpacing / t
    let eventWidth := availableWidth / t * c - overlapSpacing
    eventWidth / availableWidth
  else if truthyQ widthPercentage then widthPercentage.getD 0 / 100 else 1

/-- `EventItem.eventPosX`: the horizontal position of the event, from the
visible-column day offset, the resource column, and either the percentage
offset of a multi-day continuation or the overlap-column fan-out. -/
def eventPosX (diffDays : ℤ) (columnWidth : ℚ) (childColumns : ℕ)
    (resourceIndex : Option ℕ) (enableResourceScroll : Bool) (resourcePerPage : ℕ)
    (xOffsetPercentage : Option ℚ) (columnSpan index : Option ℕ)
    (eventWidth availableWidth overlapEventsSpacing : ℚ) : ℚ :=
  let colWidth := columnWidth / childColumns
  let startOffset : ℚ :=
    if truthyN resourceIndex then
      (((if enableResourceScroll then resourceIndex.getD 0 % resourcePerPage
          else resourceIndex.getD 0) : ℕ) : ℚ) * colWidth
    else 0
  let left := (diffDays : ℚ) * colWidth + startOffset
  if truthyQ xOffsetPercentage then
    left + availableWidth * (xOffsetPercentage.getD 0 / 100)
  else if truthyN columnSpan && truthyN index then
    left + (eventWidth + overlapEventsSpacing) *
      (((index.getD 0 : ℕ) : ℚ) / ((columnSpan.getD 0 : ℕ) : ℚ))
  else left

/-! ## Paging dispatch of `CalendarBody` and the month-page adapter -/

/-- What `CalendarBody._renderTimeSlots` returns for one page: nothing, the
month-page adapter, or the day/resource page renderer.  Callback and resource
values are carried opaquely to show they are forwarded unchanged. -/
inductive TimeSlotsRender (P Q R D S : Type) where
  | nothing
  | monthViewBody (pageIndex : ℕ) (dateUnix : ℤ)
      (onPressDay : P) (onPressEvent : Q) (renderEvent : R)
  | bodyItem (pageIndex : ℕ) (startUnix : ℤ)
      (renderDraggableEvent : D) (resources : S)

/-- The `extraData` record `CalendarBody` hands to the paging list. -/
structure ExtraData (D S : Type) where
  columns : ℕ
  visibleDatesArray : List ℤ
  renderDraggableEvent : D
  resources : S

/-- `CalendarBody._renderTimeSlots`: resolve the page's date, bail out when it
is missing (or `0`, which is falsy), and dispatch on the month-mode sentinel
`numberOfDays === 30`. -/
def renderTimeSlots {P Q R D S : Type} (numberOfDays : ℕ)
    (onPressDayNumber : P) (onPressEvent : Q) (renderEvent : R)
    (index : ℕ) (extra : ExtraData D S) : TimeSlotsRender P Q R D S :=
  let pageIndex := index * extra.columns
  match extra.visibleDatesArray.get? pageIndex with
  | none => .nothing
  | some dateUnixByIndex =>
    if dateUnixByIndex = 0 then .nothing
    else if numberOfDays = 30 then
      .monthViewBody pageIndex dateUnixByIndex onPressDayNumber onPressEvent renderEvent
    else
      .bodyItem pageIndex dateUnixByIndex extra.renderDraggableEvent extra.resources

/-- The props `MonthViewBody` passes to the month-grid renderer `MonthView`. -/
structure MonthViewCall (P Q R D : Type) where
  dateUnix : ℤ
  events : List EventItem
  onPressDay : P
  onPressEvent : Q
  renderEvent : R
  renderDayItem : D

/-- `MonthViewBody`: renders `MonthView` for the page's anchor instant with an
always-empty event list, forwarding the callbacks unchanged (the received
`pageIndex` is not forwarded). -/
def monthViewBody {P Q R D : Type} (_pageIndex : ℕ) (dateUnix : ℤ)
    (onPressDay : P) (onPressEvent : Q) (renderEvent : R) (renderDayItem : D) :
    MonthViewCall P Q R D :=
  { dateUnix := dateUnix
    events := []
    onPressDay := onPressDay
    onPressEvent := onPressEvent
    renderEvent := renderEvent
    renderDayItem := renderDayItem }

/-! ## Sample data used by counterexamples and witnesses -/

/-- A concrete `_internal` layout block. -/
def sampleInternal : EventInternal :=
  { duration := 60
    startMinutes := 540
    total := none
    index := none
    columnSpan := none
    startUnix := 0
    widthPercentage := none
    xOffsetPercentage := none
    resourceIndex := none }

/-- A concrete packed event carrying an `_internal` block. -/
def samplePackedEvent : PackedEvent :=
  { id := 1
    title := "Meeting"
    color := "#FF0000"
    titleColor := "#FFFFFF"
    _internal := some sampleInternal }

/-! ## Claims -/

/-- **C1, counterexample.**  The claim says the press callback receives the
original record with the `_internal` block stripped; on the concrete packed
event `samplePackedEvent`, the argument `_onPressEvent` passes to the caller's
callback is not the stripped record — it still carries the `_internal` block. -/
theorem eventItem_press_arg_not_stripped_cex :
    eventItemPressArg samplePackedEvent ≠ stripInternal samplePackedEvent ∧
    (eventItemPressArg samplePackedEvent)._internal = some sampleInternal ∧
    (eventItemLongPressArg samplePackedEvent)._internal = some sampleInternal := by
  refine ⟨?_, rfl, rfl⟩
  decide

/-- **C1, amended.**  The press and long-press callbacks receive the full
packed event, `_internal` block included (`onPressEvent(eventInput)` /
`onLongPressEvent(eventInput, …)`); only the record used by the default
rendering is the copy with `_internal` removed. -/
theorem eventItem_callbacks_receive_full_packed_event :
    ∀ e : PackedEvent,
      eventItemPressArg e = e ∧
      eventItemLongPressArg e = e ∧
      (eventItemRenderedRecord e)._internal = none := by
  intro e
  exact ⟨rfl, rfl, rfl⟩

/-- **C9.**  For every page index and anchor instant, `MonthViewBody` renders
`MonthView` with an always-empty event list while forwarding the day-press,
event-press, event-render and day-item-render callbacks unchanged. -/
theorem monthViewBody_empty_events_forwards_callbacks
    {P Q R D : Type} :
    ∀ (pageIndex : ℕ) (dateUnix : ℤ) (p : P) (q : Q) (r : R) (d : D),
      (monthViewBody pageIndex dateUnix p q r d).events = [] ∧
      (monthViewBody pageIndex dateUnix p q r d).dateUnix = dateUnix ∧
      (monthViewBody pageIndex dateUnix p q r d).onPressDay = p ∧
      (monthViewBody pageIndex dateUnix p q r d).onPressEvent = q ∧
      (monthViewBody pageIndex dateUnix p q r d).renderEvent = r ∧
      (monthViewBody pageIndex dateUnix p q r d).renderDayItem = d := by
  intro pageIndex dateUnix p q r d
  exact ⟨rfl, rfl, rfl, rfl, rfl, rfl⟩

/-- **C8.**  When the page's date resolves, `_renderTimeSlots` renders the
month-page adapter exactly when the configured number of visible days is the
sentinel `30`; otherwise it renders the day/resource page renderer `BodyItem`
with the page's start instant, the draggable-event renderer and the resource
list. -/
theorem renderTimeSlots_month_sentinel_dispatch
    {P Q R D S : Type} (numberOfDays : ℕ) (p : P) (q : Q) (r : R)
    (index : ℕ) (extra : ExtraData D S) (d : ℤ)
    (hd : extra.visibleDatesArray.get? (index * extra.columns) = some d)
    (hd0 : d ≠ 0) :
    (numberOfDays = 30 →
      renderTimeSlots numberOfDays p q r index extra =
        .monthViewBody (index * extra.columns) d p q r) ∧
    (numberOfDays ≠ 30 →
      renderTimeSlots numberOfDays p q r index extra =
        .bodyItem (index * extra.columns) d extra.renderDraggableEvent
          extra.resources) := by
  rw [List.get?_eq_getElem?] at hd
  constructor <;> intro h30 <;> simp [renderTimeSlots, hd, hd0, h30]

/-- **C8, witness.**  The dispatch theorem applied to a concrete page. -/
theorem renderTimeSlots_month_sentinel_dispatch_witness :
    ((30 : ℕ) = 30 →
      renderTimeSlots 30 (1 : ℕ) (2 : ℕ) (3 : ℕ) 0
          (⟨1, [86400000], (4 : ℕ), (5 : ℕ)⟩ : ExtraData ℕ ℕ) =
        .monthViewBody (0 * 1) 86400000 1 2 3) ∧
    ((30 : ℕ) ≠ 30 →
      renderTimeSlots 30 (1 : ℕ) (2 : ℕ) (3 : ℕ) 0
          (⟨1, [86400000], (4 : ℕ), (5 : ℕ)⟩ : ExtraData ℕ ℕ) =
        .bodyItem (0 * 1) 86400000 4 5) :=
  renderTimeSlots_month_sentinel_dispatch 30 1 2 3 0
    ⟨1, [86400000], 4, 5⟩ 86400000 (by decide) (by decide)

/-- **C4, counterexample.**  A one-minute event lying entirely within the
visible hour range (start 0, end 60, startMinutes 10, duration 1) renders with
`height% = 0`, so the claimed strict bounds `0 < height% < 100` fail for an
event entirely within the visible range. -/
theorem eventItem_strict_bounds_cex :
    (0 : ℚ) ≤ 10 ∧ (10 : ℚ) + 1 ≤ 60 ∧ heightPercent 0 60 1 10 = 0 := by
  refine ⟨by norm_num, by norm_num, ?_⟩
  norm_num [heightPercent, eventVerticalLayout]

/-- **C4, amended.**  The clamped duration never exceeds `end − start`; the
rendered `top` and `height` percentages are exactly
`(clampedStart + 1)/timeRange × 100` and `(totalDuration − 1)/timeRange × 100`;
and for an event entirely within the visible hour range **of duration more
than one minute**, `top% + height% ≤ 100` with both values strictly between
0 and 100 (a duration ≤ 1 makes `height%` ≤ 0, as the counterexample shows). -/
theorem eventItem_vertical_geometry (start end_ duration startMinutes : ℚ)
    (eventStartUnix startUnix : ℤ) (visibleDates : ℤ → Bool)
    (hr : start < end_) :
    (eventItemData start end_ duration startMinutes eventStartUnix startUnix
        visibleDates).totalDuration ≤ end_ - start ∧
    topPercent start end_ duration startMinutes =
      ((eventItemData start end_ duration startMinutes eventStartUnix startUnix
          visibleDates).startMinutes + 1) / (end_ - start) * 100 ∧
    heightPercent start end_ duration startMinutes =
      ((eventItemData start end_ duration startMinutes eventStartUnix startUnix
          visibleDates).totalDuration - 1) / (end_ - start) * 100 ∧
    (start ≤ startMinutes → startMinutes + duration ≤ end_ → 1 < duration →
      topPercent start end_ duration startMinutes +
          heightPercent start end_ duration startMinutes ≤ 100 ∧
      0 < topPercent start end_ duration startMinutes ∧
      topPercent start end_ duration startMinutes < 100 ∧
      0 < heightPercent start end_ duration startMinutes ∧
      heightPercent start end_ duration startMinutes < 100) := by
  have htr : (0 : ℚ) < end_ - start := by linarith
  refine ⟨?_, rfl, rfl, ?_⟩
  · unfold eventItemData eventVerticalLayout
    dsimp only
    split
    · have := min_le_right duration (end_ - start)
      rename_i hneg
      dsimp only
      linarith
    · exact min_le_right _ _
  · intro hsm hdur hone
    have hns : ¬ startMinutes - start < 0 := by linarith
    have hmin : min duration (end_ - start) = duration := by
      apply min_eq_left
      linarith
    have htop : topPercent start end_ duration startMinutes =
        (startMinutes - start + 1) / (end_ - start) * 100 := by
      unfold topPercent eventVerticalLayout
      simp only [if_neg hns]
    have hheight : heightPercent start end_ duration startMinutes =
        (duration - 1) / (end_ - start) * 100 := by
      unfold heightPercent eventVerticalLayout
      simp only [if_neg hns, hmin]
    rw [htop, hheight]
    have h100 : (startMinutes - start + 1) / (end_ - start) * 100 +
        (duration - 1) / (end_ - start) * 100 =
        (startMinutes - start + duration) / (end_ - start) * 100 := by
      field_simp
      ring
    refine ⟨?_, ?_, ?_, ?_, ?_⟩
    · rw [h100]
      have : (startMinutes - start + duration) / (end_ - start) ≤ 1 :=
        (div_le_one htr).mpr (by linarith)
      nlinarith
    · have hpos : (0 : ℚ) < startMinutes - start + 1 := by linarith
      exact mul_pos (div_pos hpos htr) (by norm_num)
    · have : (startMinutes - start + 1) / (end_ - start) < 1 :=
        (div_lt_one htr).mpr (by linarith)
      nlinarith
    · have hd1 : (0 : ℚ) < duration - 1 := by linarith
      exact mul_pos (div_pos hd1 htr) (by norm_num)
    · have : (duration - 1) / (end_ - start) < 1 :=
        (div_lt_one htr).mpr (by linarith)
      nlinarith

/-- **C4, amended, witness.**  The geometry theorem applied to a concrete
in-range event (visible range 0–60, event at minute 10 lasting 30 minutes). -/
theorem eventItem_vertical_geometry_witness :
    (eventItemData 0 60 30 10 0 0 (fun _ => true)).totalDuration ≤ 60 - 0 ∧
    topPercent 0 60 30 10 =
      ((eventItemData 0 60 30 10 0 0 (fun _ => true)).startMinutes + 1) /
        (60 - 0) * 100 ∧
    heightPercent 0 60 30 10 =
      ((eventItemData 0 60 30 10 0 0 (fun _ => true)).totalDuration - 1) /
        (60 - 0) * 100 ∧
    ((0 : ℚ) ≤ 10 → (10 : ℚ) + 30 ≤ 60 → (1 : ℚ) < 30 →
      topPercent 0 60 30 10 + heightPercent 0 60 30 10 ≤ 100 ∧
      0 < topPercent 0 60 30 10 ∧
      topPercent 0 60 30 10 < 100 ∧
      0 < heightPercent 0 60 30 10 ∧
      heightPercent 0 60 30 10 < 100) :=
  eventItem_vertical_geometry 0 60 30 10 0 0 (fun _ => true) (by norm_num)

/-- **C10, counterexample.**  At the boundary where the event ends exactly at
the visible range start (`startMinutes + duration = start`), the computed
`totalDuration` is `0`, not negative: visible range 60–120, event at minute 30
lasting 30 minutes. -/
theorem eventItem_empty_visible_boundary_cex :
    (30 : ℚ) + 30 ≤ 60 ∧ (eventVerticalLayout 60 120 30 30).2 = 0 := by
  refine ⟨by norm_num, ?_⟩
  norm_num [eventVerticalLayout]

/-- **C10, amended.**  When the event's visible portion is empty
(`startMinutes + duration ≤ start`), no clamp at zero is applied: the computed
`totalDuration` is ≤ 0 — strictly negative when the event ends strictly before
the visible range start — and the rendered height percentage is negative; the
computation is total, so no error is raised. -/
theorem eventItem_empty_visible_portion (start end_ duration startMinutes : ℚ)
    (hr : start < end_) (h : startMinutes + duration ≤ start) :
    (eventVerticalLayout start end_ duration startMinutes).2 ≤ 0 ∧
    (startMinutes + duration < start →
      (eventVerticalLayout start end_ duration startMinutes).2 < 0) ∧
    heightPercent start end_ duration startMinutes < 0 := by
  have htr : (0 : ℚ) < end_ - start := by linarith
  have hle : (eventVerticalLayout start end_ duration startMinutes).2 ≤ 0 := by
    unfold eventVerticalLayout
    dsimp only
    split
    · have := min_le_left duration (end_ - start)
      rename_i hneg
      dsimp only
      linarith
    · rename_i hns
      have hd : duration ≤ 0 := by linarith
      have := min_le_left duration (end_ - start)
      linarith
  refine ⟨hle, ?_, ?_⟩
  · intro hstrict
    unfold eventVerticalLayout
    dsimp only
    split
    · have := min_le_left duration (end_ - start)
      rename_i hneg
      dsimp only
      linarith
    · rename_i hns
      have hd : duration < 0 := by linarith
      have := min_le_left duration (end_ - start)
      linarith
  · unfold heightPercent
    have hnum : (eventVerticalLayout start end_ duration startMinutes).2 - 1 < 0 := by
      linarith
    have hdiv : ((eventVerticalLayout start end_ duration startMinutes).2 - 1) /
        (end_ - start) < 0 := div_neg_of_neg_of_pos hnum htr
    nlinarith

/-- **C10, amended, witness.**  The empty-visible-portion theorem applied to a
concrete event ending strictly before the visible range (range 60–120, event at
minute 10 lasting 20 minutes). -/
theorem eventItem_empty_visible_portion_witness :
    (eventVerticalLayout 60 120 20 10).2 ≤ 0 ∧
    ((10 : ℚ) + 20 < 60 → (eventVerticalLayout 60 120 20 10).2 < 0) ∧
    heightPercent 60 120 20 10 < 0 :=
  eventItem_empty_visible_portion 60 120 20 10 (by norm_num) (by norm_num)

/-- **C5.**  Two packed events sharing a time slot with `total = 2`,
`columnSpan = 1` and indices `0` and `1`: each width fraction equals
`eventWidth / availableWidth` with `eventWidth = availableWidth/2 −
overlapEventsSpacing/2`; the two fractions sum to at most 1; and the second
event is offset by `(eventWidth + overlapEventsSpacing) × (index/columnSpan)`
from the first, so with nonnegative spacing they sit side by side without
overlap. -/
theorem eventItem_two_overlap_columns
    (columnWidth rightEdgeSpacing s : ℚ) (childColumns : ℕ)
    (wPct xOff : Option ℚ) (diffDays : ℤ) (resourceIndex : Option ℕ)
    (ers : Bool) (rpp : ℕ)
    (haw : 0 < columnWidth / (childColumns : ℚ) - rightEdgeSpacing)
    (hs : 0 ≤ s) (hx : truthyQ xOff = false) :
    widthPercent (some 2) (some 1) wPct columnWidth rightEdgeSpacing s
        childColumns =
      ((columnWidth / (childColumns : ℚ) - rightEdgeSpacing) / 2 - s / 2) /
        (columnWidth / (childColumns : ℚ) - rightEdgeSpacing) ∧
    widthPercent (some 2) (some 1) wPct columnWidth rightEdgeSpacing s
        childColumns +
      widthPercent (some 2) (some 1) wPct columnWidth rightEdgeSpacing s
        childColumns ≤ 1 ∧
    (∀ ew aw : ℚ,
      eventPosX diffDays columnWidth childColumns resourceIndex ers rpp xOff
          (some 1) (some 1) ew aw s -
        eventPosX diffDays columnWidth childColumns resourceIndex ers rpp xOff
          (some 1) (some 0) ew aw s = (ew + s) * ((1 : ℚ) / 1) ∧
      eventPosX diffDays columnWidth childColumns resourceIndex ers rpp xOff
          (some 1) (some 0) ew aw s + ew ≤
        eventPosX diffDays columnWidth childColumns resourceIndex ers rpp xOff
          (some 1) (some 1) ew aw s) := by
  have hne : columnWidth / (childColumns : ℚ) - rightEdgeSpacing ≠ 0 :=
    ne_of_gt haw
  have hwp : widthPercent (some 2) (some 1) wPct columnWidth rightEdgeSpacing s
      childColumns =
      ((columnWidth / (childColumns : ℚ) - rightEdgeSpacing) / 2 - s / 2) /
        (columnWidth / (childColumns : ℚ) - rightEdgeSpacing) := by
    simp only [widthPercent, truthyN, Option.getD_some]
    norm_num
  refine ⟨hwp, ?_, ?_⟩
  · rw [hwp]
    set aw := columnWidth / (childColumns : ℚ) - rightEdgeSpacing with haw_def
    have hsum : (aw / 2 - s / 2) / aw + (aw / 2 - s / 2) / aw =
        (aw - s) / aw := by
      field_simp
      ring
    rw [hsum]
    exact (div_le_one haw).mpr (by linarith)
  · intro ew aw
    have h0 : eventPosX diffDays columnWidth childColumns resourceIndex ers rpp
        xOff (some 1) (some 0) ew aw s =
        (diffDays : ℚ) * (columnWidth / (childColumns : ℚ)) +
          (if truthyN resourceIndex then
            (((if ers then resourceIndex.getD 0 % rpp
                else resourceIndex.getD 0) : ℕ) : ℚ) *
              (columnWidth / (childColumns : ℚ))
          else 0) := by
      simp [eventPosX, truthyN, hx]
    have h1 : eventPosX diffDays columnWidth childColumns resourceIndex ers rpp
        xOff (some 1) (some 1) ew aw s =
        (diffDays : ℚ) * (columnWidth / (childColumns : ℚ)) +
          (if truthyN resourceIndex then
            (((if ers then resourceIndex.getD 0 % rpp
                else resourceIndex.getD 0) : ℕ) : ℚ) *
              (columnWidth / (childColumns : ℚ))
          else 0) + (ew + s) * ((1 : ℚ) / 1) := by
      simp [eventPosX, truthyN, hx]
    rw [h0, h1]
    constructor
    · ring
    · norm_num
      linarith

/-- **C5, witness.**  The overlap-column theorem applied to concrete geometry
(column width 100, one child column, right-edge spacing 10, overlap spacing 4,
day offset 0, no resource, no percentage offset). -/
theorem eventItem_two_overlap_columns_witness :
    widthPercent (some 2) (some 1) none 100 10 4 1 =
      ((100 / ((1 : ℕ) : ℚ) - 10) / 2 - 4 / 2) /
        (100 / ((1 : ℕ) : ℚ) - 10) ∧
    widthPercent (some 2) (some 1) none 100 10 4 1 +
      widthPercent (some 2) (some 1) none 100 10 4 1 ≤ 1 ∧
    (∀ ew aw : ℚ,
      eventPosX 0 100 1 none false 1 none (some 1) (some 1) ew aw 4 -
        eventPosX 0 100 1 none false 1 none (some 1) (some 0) ew aw 4 =
          (ew + 4) * ((1 : ℚ) / 1) ∧
      eventPosX 0 100 1 none false 1 none (some 1) (some 0) ew aw 4 + ew ≤
        eventPosX 0 100 1 none false 1 none (some 1) (some 1) ew aw 4) :=
  eventItem_two_overlap_columns 100 10 4 1 none none 0 none false 1
    (by norm_num) (by norm_num) (by decide)

/-- Modelled from the spec: the locale context's localized short-weekday-name
table (`context/LocaleProvider`, absent from the excerpt).  The spec's header
contract — "the header always begins with the configured first day of the
week" and, for configured first day Monday (1), "the first label equals that
locale's Monday label" — fixes its convention: index `j` holds the short name
of weekday `j + 1` in Luxon's Monday-first numbering (Monday = 1 … Sunday = 7).
-/
def localeWeekDayLabel (weekDayShort : List String) (weekday : ℕ) : String :=
  weekDayShort.getD (weekday - 1) ""

/-- **C7.**  The weekday header label at position `i` is the localized short
weekday name at index `(firstDay + i − 1) mod 7`; the header begins with the
configured first day's label; and for first day = Monday (1) the labels are
the full week in Monday-first order (the identity rotation starting at the
locale's Monday label). -/
theorem weekDays_header_rotation (firstDay : ℕ) (weekDayShort : List String)
    (h1 : 1 ≤ firstDay) (h7 : firstDay ≤ 7) (_hlen : weekDayShort.length = 7) :
    (weekDays firstDay weekDayShort).length = 7 ∧
    (∀ i, i < 7 → (weekDays firstDay weekDayShort).getD i "" =
      weekDayShort.getD ((firstDay + i - 1) % 7) "") ∧
    (weekDays firstDay weekDayShort).getD 0 "" =
      localeWeekDayLabel weekDayShort firstDay ∧
    (firstDay = 1 →
      (weekDays firstDay weekDayShort).getD 0 "" =
        localeWeekDayLabel weekDayShort 1 ∧
      ∀ i, i < 7 → (weekDays firstDay weekDayShort).getD i "" =
        localeWeekDayLabel weekDayShort (i + 1)) := by
  have hget : ∀ i, i < 7 → (weekDays firstDay weekDayShort).getD i "" =
      weekDayShort.getD ((firstDay + i - 1) % 7) "" := by
    intro i hi
    simp [weekDays, List.getD_eq_getElem?_getD, List.getElem?_map,
      List.getElem?_range, hi]
  refine ⟨by simp [weekDays], hget, ?_, ?_⟩
  · rw [hget 0 (by norm_num)]
    unfold localeWeekDayLabel
    congr 1
    omega
  · intro hfd
    subst hfd
    refine ⟨?_, ?_⟩
    · rw [hget 0 (by norm_num)]
      unfold localeWeekDayLabel
      norm_num
    · intro i hi
      rw [hget i hi]
      unfold localeWeekDayLabel
      congr 1
      omega

/-- **C7, witness.**  The header theorem applied to a concrete Monday-first
locale table with first day Monday (1). -/
theorem weekDays_header_rotation_witness :
    (weekDays 1 ["Mon", "Tue", "Wed", "Thu", "Fri", "Sat", "Sun"]).length = 7 ∧
    (∀ i, i < 7 →
      (weekDays 1 ["Mon", "Tue", "Wed", "Thu", "Fri", "Sat", "Sun"]).getD i "" =
        ["Mon", "Tue", "Wed", "Thu", "Fri", "Sat", "Sun"].getD
          ((1 + i - 1) % 7) "") ∧
    (weekDays 1 ["Mon", "Tue", "Wed", "Thu", "Fri", "Sat", "Sun"]).getD 0 "" =
      localeWeekDayLabel ["Mon", "Tue", "Wed", "Thu", "Fri", "Sat", "Sun"] 1 ∧
    ((1 : ℕ) = 1 →
      (weekDays 1 ["Mon", "Tue", "Wed", "Thu", "Fri", "Sat", "Sun"]).getD 0 "" =
        localeWeekDayLabel ["Mon", "Tue", "Wed", "Thu", "Fri", "Sat", "Sun"] 1 ∧
      ∀ i, i < 7 →
        (weekDays 1 ["Mon", "Tue", "Wed", "Thu", "Fri", "Sat", "Sun"]).getD i "" =
          localeWeekDayLabel ["Mon", "Tue", "Wed", "Thu", "Fri", "Sat", "Sun"]
            (i + 1)) :=
  weekDays_header_rotation 1 ["Mon", "Tue", "Wed", "Thu", "Fri", "Sat", "Sun"]
    (by norm_num) (by norm_num) (by decide)

/-- **C2.**  For every anchor instant and configured first day of week
(1–7, Luxon's Monday-first numbering), `monthData` produces exactly 42
consecutive day cells: cell 0 is the start of the anchor month minus
`(weekday(startOfMonth) − firstDay + 7) mod 7` days — the most recent day
on/before the first of the month whose weekday equals the configured first
day — cell `i` is that origin plus `i` days, and each cell's `isCurrentMonth`
flag equals (cell month == anchor month). -/
theorem monthData_42_consecutive_cells (dateUnix currentDateUnix : ℤ)
    (firstDay : ℕ) (events : List EventItem)
    (h1 : 1 ≤ firstDay) (h7 : firstDay ≤ 7) :
    let md := monthData dateUnix firstDay currentDateUnix events
    let som := startOfMonthDayNum (dayOf dateUnix)
    let origin := som - (weekdayOfDay som - firstDay + 7) % 7
    md.length = 42 ∧
    (∀ i, ∀ h : i < md.length,
      (md.get ⟨i, h⟩).dateUnix = (origin + i) * MILLISECONDS_IN_DAY) ∧
    weekdayOfDay origin = firstDay ∧
    som - 7 < origin ∧ origin ≤ som ∧
    (∀ i, ∀ h : i < md.length,
      (md.get ⟨i, h⟩).isCurrentMonth =
        (monthOfDay (origin + i) == monthOfDay (dayOf dateUnix))) := by
  refine ⟨?_, ?_, ?_, ?_, ?_, ?_⟩
  · unfold monthData
    simp only [List.length_map, List.length_range]
  · intro i h
    unfold monthData
    simp only [List.get_eq_getElem, List.getElem_map, List.getElem_range]
  · simp only [weekdayOfDay]
    omega
  · simp only [weekdayOfDay]
    omega
  · simp only [weekdayOfDay]
    omega
  · intro i h
    unfold monthData
    simp only [List.get_eq_getElem, List.getElem_map, List.getElem_range]

/-- **C2, witness.**  The grid theorem applied to a concrete anchor
(1970-01-01, first day Monday). -/
theorem monthData_42_consecutive_cells_witness :
    let md := monthData 0 1 0 []
    let som := startOfMonthDayNum (dayOf 0)
    let origin := som - (weekdayOfDay som - 1 + 7) % 7
    md.length = 42 ∧
    (∀ i, ∀ h : i < md.length,
      (md.get ⟨i, h⟩).dateUnix = (origin + i) * MILLISECONDS_IN_DAY) ∧
    weekdayOfDay origin = 1 ∧
    som - 7 < origin ∧ origin ≤ som ∧
    (∀ i, ∀ h : i < md.length,
      (md.get ⟨i, h⟩).isCurrentMonth =
        (monthOfDay (origin + i) == monthOfDay (dayOf 0))) :=
  monthData_42_consecutive_cells 0 0 1 [] (by decide) (by decide)

/-- **C6.**  An event whose `start` cannot be parsed as a valid instant in the
active timezone is excluded from all 42 day cells, and every cell's diagnostic
warning list records it; the computation is total, so rendering does not
throw. -/
theorem monthData_excludes_unparseable (dateUnix currentDateUnix : ℤ)
    (firstDay : ℕ) (events : List EventItem) (ev : EventItem)
    (hbad : parseDateTimeEvent ev.start = none) (hev : ev ∈ events) :
    (monthData dateUnix firstDay currentDateUnix events).length = 42 ∧
    ∀ cell ∈ monthData dateUnix firstDay currentDateUnix events,
      ev ∉ cell.events ∧ ev ∈ cell.warnings := by
  constructor
  · unfold monthData
    simp only [List.length_map, List.length_range]
  intro cell hc
  simp only [monthData, List.mem_map, List.mem_range] at hc
  obtain ⟨i, _, rfl⟩ := hc
  constructor
  · intro hmem
    rw [List.mem_filter] at hmem
    rw [hbad] at hmem
    simp at hmem
  · rw [List.mem_filter]
    exact ⟨hev, by simp [hbad]⟩

/-- **C6, witness.**  The exclusion theorem applied to a concrete event list
holding one event whose `start` is the unparseable string `"not-a-date"`. -/
theorem monthData_excludes_unparseable_witness :
    (monthData 0 1 0
        [{ id := 0, start := .malformed "not-a-date", title := "t",
           color := "c" }]).length = 42 ∧
    ∀ cell ∈ monthData 0 1 0
        [{ id := 0, start := .malformed "not-a-date", title := "t",
           color := "c" }],
      ({ id := 0, start := .malformed "not-a-date", title := "t",
         color := "c" } : EventItem) ∉ cell.events ∧
      ({ id := 0, start := .malformed "not-a-date", title := "t",
         color := "c" } : EventItem) ∈ cell.warnings :=
  monthData_excludes_unparseable 0 0 1 _ _ (by decide) (by decide)

/-- One unfolding step of the hidden-day walk while `cur < target`. -/
lemma countHiddenDays_step (vis : ℤ → Bool) (cur target : ℤ)
    (h : cur < target) :
    countHiddenDays vis cur target =
      (if vis (dayStartMs cur) then 0 else 1) +
        countHiddenDays vis (cur + MILLISECONDS_IN_DAY) target := by
  rw [countHiddenDays]
  simp [h]

/-- The hidden-day walk stops when `cur ≥ target`. -/
lemma countHiddenDays_stop (vis : ℤ → Bool) (cur target : ℤ)
    (h : ¬ cur < target) : countHiddenDays vis cur target = 0 := by
  rw [countHiddenDays]
  simp [h]

/-- One unfolding step of the visible-day count while `cur < target`. -/
lemma visibleDayCount_step (vis : ℤ → Bool) (cur target : ℤ)
    (h : cur < target) :
    visibleDayCount vis cur target =
      (if vis (dayStartMs cur) then 1 else 0) +
        visibleDayCount vis (cur + MILLISECONDS_IN_DAY) target := by
  rw [visibleDayCount]
  simp [h]

/-- The visible-day count stops when `cur ≥ target`. -/
lemma visibleDayCount_stop (vis : ℤ → Bool) (cur target : ℤ)
    (h : ¬ cur < target) : visibleDayCount vis cur target = 0 := by
  rw [visibleDayCount]
  simp [h]

/-- Over a day-aligned span of `n` days, every day is either hidden or
visible: the two walks partition the span. -/
lemma countHiddenDays_add_visibleDayCount (vis : ℤ → Bool) :
    ∀ (n : ℕ) (k m : ℤ), m - k = n →
      (countHiddenDays vis (k * MILLISECONDS_IN_DAY)
          (m * MILLISECONDS_IN_DAY) : ℤ) +
        (visibleDayCount vis (k * MILLISECONDS_IN_DAY)
          (m * MILLISECONDS_IN_DAY) : ℤ) = n := by
  intro n
  induction n with
  | zero =>
    intro k m hkm
    have hk : m = k := by omega
    subst hk
    rw [countHiddenDays_stop _ _ _ (lt_irrefl _),
      visibleDayCount_stop _ _ _ (lt_irrefl _)]
    simp
  | succ n ih =>
    intro k m hkm
    have hDpos : (0 : ℤ) < MILLISECONDS_IN_DAY := by decide
    have hkm' : k < m := by omega
    have hlt : k * MILLISECONDS_IN_DAY < m * MILLISECONDS_IN_DAY :=
      mul_lt_mul_of_pos_right hkm' hDpos
    rw [countHiddenDays_step _ _ _ hlt, visibleDayCount_step _ _ _ hlt]
    have hstep : k * MILLISECONDS_IN_DAY + MILLISECONDS_IN_DAY =
        (k + 1) * MILLISECONDS_IN_DAY := by ring
    rw [hstep]
    have hrec := ih (k + 1) m (by omega)
    by_cases hv : vis (dayStartMs (k * MILLISECONDS_IN_DAY)) <;>
      simp only [hv, if_true, if_false] <;> push_cast <;> omega

/-- A 3-day viewport whose middle day is hidden: day starts `0` and
`2 × MILLISECONDS_IN_DAY` are visible, the day between is not. -/
def hiddenMiddleExample : ℤ → Bool :=
  fun t => t == 0 || t == 2 * MILLISECONDS_IN_DAY

/-- **C3.**  For day-aligned event and viewport start instants, `diffDays`
equals the signed number of currently-visible day columns between the
viewport's start date and the event's start date: a day absent from the
visible-dates map consumes no column.  In particular, across the 3-day span
whose middle day is hidden, `diffDays` is 1, not 2. -/
theorem eventItem_diffDays_visible_columns :
    (∀ (vis : ℤ → Bool) (a b : ℤ),
      eventDiffDays (a * MILLISECONDS_IN_DAY) (b * MILLISECONDS_IN_DAY) vis =
        if a < b then
          -(visibleDayCount vis (a * MILLISECONDS_IN_DAY)
              (b * MILLISECONDS_IN_DAY) : ℤ)
        else
          (visibleDayCount vis (b * MILLISECONDS_IN_DAY)
              (a * MILLISECONDS_IN_DAY) : ℤ)) ∧
    eventDiffDays (2 * MILLISECONDS_IN_DAY) 0 hiddenMiddleExample = 1 := by
  have hD : MILLISECONDS_IN_DAY ≠ 0 := by decide
  have hDpos : (0 : ℤ) < MILLISECONDS_IN_DAY := by decide
  constructor
  · intro vis a b
    simp only [eventDiffDays]
    have hd0 : Int.fdiv
        (a * MILLISECONDS_IN_DAY - b * MILLISECONDS_IN_DAY)
        MILLISECONDS_IN_DAY = a - b := by
      rw [← sub_mul, Int.mul_fdiv_cancel _ hD]
    rw [hd0]
    have hlt : a * MILLISECONDS_IN_DAY < b * MILLISECONDS_IN_DAY ↔ a < b :=
      mul_lt_mul_right hDpos
    by_cases hab : a < b
    · rw [if_pos (hlt.mpr hab), if_pos hab]
      have key := countHiddenDays_add_visibleDayCount vis (b - a).toNat a b
        (by omega)
      omega
    · rw [if_neg (fun hc => hab (hlt.mp hc)), if_neg hab]
      have key := countHiddenDays_add_visibleDayCount vis (a - b).toNat b a
        (by omega)
      omega
  · simp only [eventDiffDays]
    have h2 : ¬ 2 * MILLISECONDS_IN_DAY < (0 : ℤ) := by decide
    rw [if_neg h2]
    have hd0 : Int.fdiv (2 * MILLISECONDS_IN_DAY - 0) MILLISECONDS_IN_DAY
        = 2 := by decide
    rw [hd0]
    have hs1 : countHiddenDays hiddenMiddleExample 0
        (2 * MILLISECONDS_IN_DAY) =
        (if hiddenMiddleExample (dayStartMs 0) then 0 else 1) +
          countHiddenDays hiddenMiddleExample (0 + MILLISECONDS_IN_DAY)
            (2 * MILLISECONDS_IN_DAY) :=
      countHiddenDays_step _ _ _ (by decide)
    have hs2 : countHiddenDays hiddenMiddleExample
        (0 + MILLISECONDS_IN_DAY) (2 * MILLISECONDS_IN_DAY) =
        (if hiddenMiddleExample (dayStartMs (0 + MILLISECONDS_IN_DAY))
          then 0 else 1) +
          countHiddenDays hiddenMiddleExample
            (0 + MILLISECONDS_IN_DAY + MILLISECONDS_IN_DAY)
            (2 * MILLISECONDS_IN_DAY) :=
      countHiddenDays_step _ _ _ (by decide)
    have hs3 : countHiddenDays hiddenMiddleExample
        (0 + MILLISECONDS_IN_DAY + MILLISECONDS_IN_DAY)
        (2 * MILLISECONDS_IN_DAY) = 0 :=
      countHiddenDays_stop _ _ _ (by decide)
    rw [hs1, hs2, hs3]
    have hv0 : hiddenMiddleExample (dayStartMs 0) = true := by decide
    have hv1 : hiddenMiddleExample (dayStartMs (0 + MILLISECONDS_IN_DAY))
        = false := by decide
    rw [hv0, hv1]
    decide

end CalendarKit
